import Mathlib

/-!
Shallow embedding of the sales-forecast application (src/app.py) and proofs
about its aggregation, filtering, timeline-reconciliation and forecasting
pipeline.

Modelling conventions:
* Calendar dates are represented by their day ordinal (a `Nat`); pandas
  `Timestamp` arithmetic on whole days is ordinal arithmetic.  The textual
  parse of the localized date column (lines 79-88) is abstracted into an
  `Option Nat` field of the raw row (`none` = `NaT`).
* Numeric cell values are modelled as `Int`.  The application stores floats;
  no property below depends on fractional values, and the amount grammar of
  the model accepts a fractional part but truncates it (see `parseIntOfFloat`).
* Python string operations are modelled on `String.data` (`List Char`) so that
  every definition evaluates inside the kernel.
* The three forecasting backends (Prophet, pmdarima, scikit-learn) are
  external libraries; their raw numeric predictions enter the model as oracle
  functions, while everything the application itself does with them (future
  date frames, filtering, slicing, clamping, truncation) is embedded.
-/

namespace SalesApp

/-- whitespace recognised by Python `str.strip()` (the characters that occur
in this data model). -/
def isPySpace (c : Char) : Bool := c = ' ' ∨ c = '\t' ∨ c = '\n' ∨ c = '\r'

/-- Python `str.strip()`: remove leading and trailing whitespace. -/
def strip (s : String) : String :=
  ⟨((s.data.dropWhile isPySpace).reverse.dropWhile isPySpace).reverse⟩

/-- characters before the first occurrence of the separator `" - "`
(the whole list when the separator does not occur). -/
def takeUntilSep : List Char → List Char
  | [] => []
  | c :: rest =>
    if c = ' ' ∧ rest.take 2 = ['-', ' '] then [] else c :: takeUntilSep rest

/-- Python `item.split(' - ')[0]`: the prefix of `s` before the first
occurrence of `" - "`. -/
def firstSegment (s : String) : String := ⟨takeUntilSep s.data⟩

/-- value of a run of decimal digits. -/
def digitsToNat (l : List Char) : Nat :=
  l.foldl (fun a c => 10 * a + (c.toNat - 48)) 0

/-- unsigned part of the numeric grammar `digits [. digits]`; the fractional
digits are validated and then truncated (`int(float(s))` truncates toward
zero).  `none` when Python `float()` would raise `ValueError`. -/
def parseDigits (l : List Char) : Option Nat :=
  let intPart := l.takeWhile (fun c => c ≠ '.')
  let rest := l.dropWhile (fun c => c ≠ '.')
  if intPart ≠ [] ∧ intPart.all Char.isDigit ∧ rest.tail.all Char.isDigit then
    some (digitsToNat intPart)
  else none

/-- Python `int(float(s))` for the grammar `[+|-] digits [. digits]`
(scientific notation and other exotic float spellings do not occur in this
data model).  `none` models a raised `ValueError`. -/
def parseIntOfFloat (l : List Char) : Option Int :=
  match l with
  | '-' :: rest => (parseDigits rest).map (fun n => -(n : Int))
  | '+' :: rest => (parseDigits rest).map (fun n => (n : Int))
  | l => (parseDigits l).map (fun n => (n : Int))

/-- Python `s.replace(',', '')`. -/
def stripCommas (s : String) : String := ⟨s.data.filter (fun c => c ≠ ',')⟩

/-- line 91: one cell of
`df['税抜売上金額'].astype(str).str.replace(',', '').astype(float)`;
`float()` tolerates surrounding whitespace and raises on malformed input,
modelled by `none`. -/
def parseAmount (s : String) : Option Int :=
  parseIntOfFloat (strip (stripCommas s)).data

/-- one raw uploaded row before load-time conversion: the date cell is
represented by the result of `parse_date` (lines 79-88), `none` for `NaT`;
the amount cell is kept textual. -/
structure RawRow where
  parsedDate : Option Nat
  qty : Int
  amountStr : String
  deptCode : String
  deptName : String
  methodCode : String
  methodName : String
  prodCode : String
  prodName : String
deriving DecidableEq, Repr

/-- one transaction row after load-time conversion (spec §3
TransactionRecord): parsed sale date, numeric quantity and amount, and the
three code/name column pairs. -/
structure SalesRow where
  date : Nat
  qty : Int
  amount : Int
  deptCode : String
  deptName : String
  methodCode : String
  methodName : String
  prodCode : String
  prodName : String
deriving DecidableEq, Repr

/-- one entry of a DailySeries: (日付, 売上数量, 税抜売上金額). -/
structure DailyEntry where
  date : Nat
  qty : Int
  amount : Int
deriving DecidableEq, Repr

/-- pandas `.min()` over a date column (meaningful on nonempty input). -/
def listMin : List Nat → Nat
  | [] => 0
  | [d] => d
  | d :: e :: rest => min d (listMin (e :: rest))

/-- pandas `.max()` over a date column (meaningful on nonempty input). -/
def listMax : List Nat → Nat
  | [] => 0
  | [d] => d
  | d :: e :: rest => max d (listMax (e :: rest))

/-- pandas `pd.date_range(start=mn, end=mx, freq='D')` on day ordinals:
the list `[mn, mn+1, ..., mx]`, empty when `mx < mn`. -/
def dateRange (mn mx : Nat) : List Nat :=
  if mx < mn then [] else List.range' mn (mx - mn + 1)

/-- sum of 売上数量 over the rows carrying the given date. -/
def sumQtyOn (df : List SalesRow) (d : Nat) : Int :=
  ((df.filter (fun r => decide (r.date = d))).map (fun r => r.qty)).sum

/-- sum of 税抜売上金額_数値 over the rows carrying the given date. -/
def sumAmountOn (df : List SalesRow) (d : Nat) : Int :=
  ((df.filter (fun r => decide (r.date = d))).map (fun r => r.amount)).sum

/-- pandas `df.groupby('売上日付_datetime').agg({'売上数量': 'sum',
'税抜売上金額_数値': 'sum'}).reset_index()` followed by `sort_values('日付')`
(lines 106-112 and 185-199): one row per distinct date, ascending, carrying
the two sums. -/
def groupDaily (df : List SalesRow) : List DailyEntry :=
  (List.insertionSort (fun a b => a ≤ b) (df.map (fun r => r.date)).dedup).map
    (fun d => ⟨d, sumQtyOn df d, sumAmountOn df d⟩)

/-- left merge of the full date range with a daily frame keyed on 日付
followed by `fillna(0)` (lines 119-126 and 206-213): each date of the range
gets the matching daily row when present and a zero row otherwise. -/
def gapFill (daily : List DailyEntry) (mn mx : Nat) : List DailyEntry :=
  (dateRange mn mx).map fun d =>
    match daily.find? (fun e => decide (e.date = d)) with
    | some e => e
    | none => ⟨d, 0, 0⟩

/-- the Daily Aggregator shared by lines 105-127 (load_data) and 181-215
(filter_by_product): group by date, then, when the grouped frame is nonempty
(`if len(daily_data) > 0`), gap-fill over the observed span. -/
def aggregate (df : List SalesRow) : List DailyEntry :=
  let daily := groupDaily df
  if daily.isEmpty then daily
  else gapFill daily (listMin (daily.map (fun e => e.date)))
    (listMax (daily.map (fun e => e.date)))

/-- lines 72-131 (`load_data`): line 91 converts the whole amount column and
raises on the first malformed cell; the exception is caught at lines 128-131,
an error message is shown and `(None, None)` returned, modelled by `none`.
On success the typed record list and its daily aggregation are returned; rows
whose date parsed to `NaT` contribute to no group (pandas `groupby` drops
`NaT` keys), so the model drops them when building the typed record list. -/
def load_data (rows : List RawRow) : Option (List DailyEntry × List SalesRow) :=
  if rows.all (fun r => (parseAmount r.amountStr).isSome) then
    let recs := rows.filterMap (fun r =>
      match r.parsedDate, parseAmount r.amountStr with
      | some d, some a =>
        some ⟨d, r.qty, a, r.deptCode, r.deptName, r.methodCode, r.methodName,
          r.prodCode, r.prodName⟩
      | _, _ => none)
    some (aggregate recs, recs)
  else
    none

/-- lines 143-151 (`extract_code`):
`int(float(item.split(' - ')[0].strip()))`, with 0 on `ValueError`. -/
def extract_code (item : String) : Int :=
  match parseIntOfFloat (strip (firstSegment item)).data with
  | some n => n
  | none => 0

instance : IsTotal String (fun a b => extract_code a ≤ extract_code b) :=
  ⟨fun _ _ => le_total _ _⟩

instance : IsTrans String (fun a b => extract_code a ≤ extract_code b) :=
  ⟨fun _ _ _ => le_trans⟩

/-- lines 133-159 (`sort_by_code`): when `is_first_item_all` the first
element is detached and re-prepended, the rest is sorted by the numeric key
`extract_code` (`sorted(code_items, key=extract_code)`). -/
def sort_by_code (item_list : List String) (is_first_item_all : Bool) :
    List String :=
  if is_first_item_all then
    let all_item := item_list.headD ""
    let code_items := item_list.tail
    all_item ::
      List.insertionSort (fun a b => extract_code a ≤ extract_code b) code_items
  else
    List.insertionSort (fun a b => extract_code a ≤ extract_code b) item_list

/-- lines 161-169 (`filter_by_department`): empty or sentinel-containing
selections return the frame unchanged; otherwise the rows whose stripped
department code is among `[dept.split(' - ')[0] for dept in selected]`. -/
def filter_by_department (df : List SalesRow) (sel : List String) :
    List SalesRow :=
  if sel = [] ∨ "全ての部門" ∈ sel then df
  else
    let department_codes := sel.map firstSegment
    df.filter (fun r => decide (strip r.deptCode ∈ department_codes))

/-- lines 171-179 (`filter_by_order_method`): same shape on the order-method
axis. -/
def filter_by_order_method (df : List SalesRow) (sel : List String) :
    List SalesRow :=
  if sel = [] ∨ "全ての受注方法" ∈ sel then df
  else
    let order_method_codes := sel.map firstSegment
    df.filter (fun r => decide (strip r.methodCode ∈ order_method_codes))

/-- lines 181-215 (`filter_by_product`): empty or sentinel-containing
selections aggregate the whole frame, otherwise the rows whose stripped
product code is among the selected segments are aggregated; both branches
share the group/sort/gap-fill tail embedded in `aggregate`. -/
def filter_by_product (df : List SalesRow) (sel : List String) :
    List DailyEntry :=
  if sel = [] ∨ "全ての商品" ∈ sel then aggregate df
  else
    let product_codes := sel.map firstSegment
    aggregate (df.filter (fun r => decide (strip r.prodCode ∈ product_codes)))

/-- line 99: the `部門コード_部門名` composite label of one row
(`code.strip() + ' - ' + name.strip()`). -/
def deptLabel (r : SalesRow) : String :=
  strip r.deptCode ++ " - " ++ strip r.deptName

/-- line 95: the `商品コード_商品名` composite label of one row. -/
def prodLabel (r : SalesRow) : String :=
  strip r.prodCode ++ " - " ++ strip r.prodName

/-- line 103: the `受注方法コード_受注方法名` composite label of one row. -/
def methodLabel (r : SalesRow) : String :=
  strip r.methodCode ++ " - " ++ strip r.methodName

/-- line 229: `raw_data['部門コード_部門名'].unique().tolist()`; only the
membership of this list is used below (pandas `unique` keeps first
occurrences, `dedup` keeps last). -/
def deptLabels (df : List SalesRow) : List String := (df.map deptLabel).dedup

/-- line 248: the order-method label list of a frame. -/
def methodLabels (df : List SalesRow) : List String :=
  (df.map methodLabel).dedup

/-- line 266: the product label list of a frame. -/
def prodLabels (df : List SalesRow) : List String := (df.map prodLabel).dedup

/-- lines 238, 257, 275-281: the cascade department → order-method → product,
ending in the product-stage aggregation; an empty result triggers the warning
「選択された条件にデータがありません。」 and `daily_data = None`, modelled by
`none`. -/
def engineDailyData (raw : List SalesRow) (dsel msel psel : List String) :
    Option (List DailyEntry) :=
  let f1 := filter_by_department raw dsel
  let f2 := filter_by_order_method f1 msel
  let d := filter_by_product f2 psel
  if d.isEmpty then none else some d

/-- line 311: the whole model-selection and forecast section runs only under
`daily_data is not None and len(daily_data) > 0`. -/
def canForecast (daily_data : Option (List DailyEntry)) : Bool :=
  match daily_data with
  | none => false
  | some d => !d.isEmpty

/-- lines 423-439: keep the daily rows dated up to the true last data date
(line 424 compares against `original_last_date_date`, not the chosen cutoff),
then, when nonempty, re-merge over `[original_min_date, data_end_date]` with
zero fill. -/
def daily_data_for_forecast (daily_data : List DailyEntry)
    (data_end_date : Nat) : List DailyEntry :=
  let original_last_date := listMax (daily_data.map (fun e => e.date))
  let original_min_date := listMin (daily_data.map (fun e => e.date))
  let kept := daily_data.filter (fun e => decide (e.date ≤ original_last_date))
  if kept.isEmpty then kept
  else gapFill kept original_min_date data_end_date

/-- line 482: `forecast_days = (end_date - start_date).days + 1` (dates are
ordinals, the difference taken in `Int`). -/
def forecast_days (start_date end_date : Nat) : Int :=
  ((end_date : Int) - (start_date : Int)) + 1

/-- lines 580-591: `days_to_forecast_end = (end_date -
last_data_date_date).days`, replaced by `forecast_days` when negative. -/
def days_to_forecast_end (end_date last_data_date : Nat) (fdays : Int) : Int :=
  let d := (end_date : Int) - (last_data_date : Int)
  if d < 0 then fdays else d

/-- the three forecasting backends offered by the model selector. -/
inductive Backend where
  | prophet
  | arima
  | linreg
deriving DecidableEq, Repr

/-- elementwise clamp to non-negative values: `np.maximum(xs, 0)`
(lines 615, 641, 652, 676, 702, 713). -/
def clampNonNeg (xs : List Int) : List Int := xs.map (fun x => max x 0)

/-- Prophet `make_future_dataframe(periods=n)` (lines 609, 670): the history
dates followed by the `n` days after the last history date. -/
def prophetFutureDates (histDates : List Nat) (periods : Nat) : List Nat :=
  histDates ++ List.range' (listMax histDates + 1) periods

/-- number of future periods each backend branch asks its library for:
`periods=days_to_forecast_end` at lines 609/670, `n_periods=forecast_days` at
lines 639/700, and an `X_future` of `forecast_days` rows at lines
649-650/710-711. -/
def periodsRequested (b : Backend) (d2fe fdays : Int) : Int :=
  match b with
  | .prophet => d2fe
  | .arima => fdays
  | .linreg => fdays

/-- lines 593-652 (quantity forecast).  Backend internals are external
libraries (spec §1): `yhat d` is Prophet's prediction for date `d` (its
`predict` returns one row per date of the future frame), `rawA k` / `rawL k`
the k-th of the `forecast_days` values returned by `auto_arima.predict` /
`LinearRegression.predict`.  The Prophet branch keeps the predictions dated on
or after `start_date` and cuts them to `forecast_days` values when longer
(line 613); every branch ends in the `np.maximum` clamp. -/
def forecast_quantity (b : Backend) (training : List DailyEntry)
    (yhat rawA rawL : Nat → Int) (start_date : Nat) (fdays d2fe : Nat) :
    List Int :=
  match b with
  | .prophet =>
    let future := prophetFutureDates (training.map (fun e => e.date)) d2fe
    let forecast_q := future.map (fun d => (d, yhat d))
    let forecast_filtered :=
      (forecast_q.filter (fun p => decide (start_date ≤ p.1))).map
        (fun p => p.2)
    let sliced :=
      if fdays ≤ forecast_filtered.length then forecast_filtered.take fdays
      else forecast_filtered
    clampNonNeg sliced
  | .arima => clampNonNeg ((List.range fdays).map rawA)
  | .linreg => clampNonNeg ((List.range fdays).map rawL)

/-- lines 654-713 (amount forecast): same pipeline shape as
`forecast_quantity`, run independently on the amount series. -/
def forecast_amount (b : Backend) (training : List DailyEntry)
    (yhat rawA rawL : Nat → Int) (start_date : Nat) (fdays d2fe : Nat) :
    List Int :=
  match b with
  | .prophet =>
    let future := prophetFutureDates (training.map (fun e => e.date)) d2fe
    let forecast_a := future.map (fun d => (d, yhat d))
    let forecast_filtered :=
      (forecast_a.filter (fun p => decide (start_date ≤ p.1))).map
        (fun p => p.2)
    let sliced :=
      if fdays ≤ forecast_filtered.length then forecast_filtered.take fdays
      else forecast_filtered
    clampNonNeg sliced
  | .arima => clampNonNeg ((List.range fdays).map rawA)
  | .linreg => clampNonNeg ((List.range fdays).map rawL)

/-- line 573: `forecast_dates_quantity = pd.date_range(start=start_date,
end=end_date, freq='D')`. -/
def forecast_dates_quantity (start_date end_date : Nat) : List Nat :=
  dateRange start_date end_date

/-- lines 802-808: `min_length = min(len(dates), len(fq), len(fa))` and the
result table built from the three columns truncated to that length. -/
def forecast_table_rows (dates : List Nat) (fq fa : List Int) :
    List (Nat × Int × Int) :=
  let min_length := min dates.length (min fq.length fa.length)
  (dates.take min_length).zip ((fq.take min_length).zip (fa.take min_length))

end SalesApp

namespace SalesApp

theorem listMin_le {x : Nat} {l : List Nat} (hx : x ∈ l) : listMin l ≤ x := by
  induction l with
  | nil => cases hx
  | cons d rest ih =>
    cases rest with
    | nil =>
      rw [List.mem_singleton.mp hx]
      exact le_refl _
    | cons e rest' =>
      rw [listMin]
      rcases List.mem_cons.mp hx with h | h
      · exact h ▸ min_le_left _ _
      · exact le_trans (min_le_right _ _) (ih h)

theorem le_listMax {x : Nat} {l : List Nat} (hx : x ∈ l) : x ≤ listMax l := by
  induction l with
  | nil => cases hx
  | cons d rest ih =>
    cases rest with
    | nil =>
      rw [List.mem_singleton.mp hx]
      exact le_refl _
    | cons e rest' =>
      rw [listMax]
      rcases List.mem_cons.mp hx with h | h
      · exact h ▸ le_max_left _ _
      · exact le_trans (ih h) (le_max_right _ _)

theorem listMin_mem {l : List Nat} (h : l ≠ []) : listMin l ∈ l := by
  induction l with
  | nil => exact absurd rfl h
  | cons d rest ih =>
    cases rest with
    | nil => simp [listMin]
    | cons e rest' =>
      rw [listMin]
      rcases le_total d (listMin (e :: rest')) with hle | hle
      · rw [min_eq_left hle]; exact List.mem_cons_self _ _
      · rw [min_eq_right hle]
        exact List.mem_cons_of_mem _ (ih (by simp))

theorem listMax_mem {l : List Nat} (h : l ≠ []) : listMax l ∈ l := by
  induction l with
  | nil => exact absurd rfl h
  | cons d rest ih =>
    cases rest with
    | nil => simp [listMax]
    | cons e rest' =>
      rw [listMax]
      rcases le_total d (listMax (e :: rest')) with hle | hle
      · rw [max_eq_right hle]
        exact List.mem_cons_of_mem _ (ih (by simp))
      · rw [max_eq_left hle]; exact List.mem_cons_self _ _

theorem listMin_congr {l₁ l₂ : List Nat} (h₁ : l₁ ≠ []) (h₂ : l₂ ≠ [])
    (h : ∀ x, x ∈ l₁ ↔ x ∈ l₂) : listMin l₁ = listMin l₂ :=
  le_antisymm (listMin_le ((h _).mpr (listMin_mem h₂)))
    (listMin_le ((h _).mp (listMin_mem h₁)))

theorem listMax_congr {l₁ l₂ : List Nat} (h₁ : l₁ ≠ []) (h₂ : l₂ ≠ [])
    (h : ∀ x, x ∈ l₁ ↔ x ∈ l₂) : listMax l₁ = listMax l₂ :=
  le_antisymm (le_listMax ((h _).mp (listMax_mem h₁)))
    (le_listMax ((h _).mpr (listMax_mem h₂)))

theorem listMin_range' (s n : Nat) : listMin (List.range' s (n + 1)) = s := by
  induction n generalizing s with
  | zero => rfl
  | succ n ih =>
    rw [List.range'_succ, List.range'_succ, listMin, ← List.range'_succ, ih]
    exact min_eq_left (by omega)

theorem listMax_range' (s n : Nat) : listMax (List.range' s (n + 1)) = s + n := by
  induction n generalizing s with
  | zero => rfl
  | succ n ih =>
    rw [List.range'_succ, List.range'_succ, listMax, ← List.range'_succ, ih,
      max_eq_right (by omega)]
    omega

theorem dateRange_eq {mn mx : Nat} (h : mn ≤ mx) :
    dateRange mn mx = List.range' mn (mx - mn + 1) := by
  rw [dateRange, if_neg (by omega)]

theorem length_dateRange {mn mx : Nat} (h : mn ≤ mx) :
    (dateRange mn mx).length = mx - mn + 1 := by
  rw [dateRange_eq h, List.length_range']

theorem getElem_dateRange {mn mx : Nat} (h : mn ≤ mx) (i : Nat)
    (hi : i < (dateRange mn mx).length) : (dateRange mn mx)[i] = mn + i := by
  rw [List.getElem_of_eq (dateRange_eq h) hi, List.getElem_range']
  omega

theorem mem_dateRange {mn mx d : Nat} (h : mn ≤ mx) :
    d ∈ dateRange mn mx ↔ mn ≤ d ∧ d ≤ mx := by
  rw [dateRange_eq h, List.mem_range'_1]
  omega

theorem take_range' (s n m : Nat) :
    (List.range' s n).take m = List.range' s (min m n) := by
  apply List.ext_getElem
  · simp [List.length_take, List.length_range']
  · intro i h₁ h₂
    rw [List.getElem_take, List.getElem_range', List.getElem_range']

theorem length_gapFill (daily : List DailyEntry) {mn mx : Nat} (h : mn ≤ mx) :
    (gapFill daily mn mx).length = mx - mn + 1 := by
  rw [gapFill, List.length_map, length_dateRange h]

theorem getElem_gapFill_date (daily : List DailyEntry) {mn mx : Nat}
    (h : mn ≤ mx) (i : Nat) (hi : i < (gapFill daily mn mx).length) :
    ((gapFill daily mn mx)[i]).date = mn + i := by
  unfold gapFill at hi ⊢
  rw [List.getElem_map]
  have hd : i < (dateRange mn mx).length := by simpa using hi
  rw [getElem_dateRange h i hd]
  rcases hfind : daily.find? (fun e => decide (e.date = mn + i)) with _ | e <;>
    rw [hfind]
  have := List.find?_some hfind
  simpa using this

theorem getElem_gapFill_of_mem (daily : List DailyEntry) {mn mx : Nat}
    (h : mn ≤ mx) (i : Nat) (hi : i < (gapFill daily mn mx).length)
    (hex : ∃ e ∈ daily, e.date = mn + i) :
    (gapFill daily mn mx)[i] ∈ daily := by
  unfold gapFill at hi ⊢
  rw [List.getElem_map]
  have hd : i < (dateRange mn mx).length := by simpa using hi
  rw [getElem_dateRange h i hd]
  have hsome : (daily.find? (fun e => decide (e.date = mn + i))).isSome := by
    rw [List.find?_isSome]
    obtain ⟨e, he, hdate⟩ := hex
    exact ⟨e, he, by simpa using hdate⟩
  rcases hfind : daily.find? (fun e => decide (e.date = mn + i)) with _ | e <;>
    rw [hfind]
  · rw [hfind] at hsome; simp at hsome
  · exact List.mem_of_find?_eq_some hfind

theorem getElem_gapFill_of_none (daily : List DailyEntry) {mn mx : Nat}
    (h : mn ≤ mx) (i : Nat) (hi : i < (gapFill daily mn mx).length)
    (hno : ∀ e ∈ daily, e.date ≠ mn + i) :
    (gapFill daily mn mx)[i] = ⟨mn + i, 0, 0⟩ := by
  unfold gapFill at hi ⊢
  rw [List.getElem_map]
  have hd : i < (dateRange mn mx).length := by simpa using hi
  rw [getElem_dateRange h i hd]
  have hnone : daily.find? (fun e => decide (e.date = mn + i)) = none := by
    rw [List.find?_eq_none]
    intro e he
    simpa using hno e he
  rw [hnone]

theorem groupDaily_map_date (df : List SalesRow) :
    (groupDaily df).map (fun e => e.date) =
      List.insertionSort (fun a b => a ≤ b) (df.map (fun r => r.date)).dedup := by
  rw [groupDaily, List.map_map]
  exact List.map_id _

theorem mem_groupDaily_date {df : List SalesRow} {d : Nat} :
    (∃ e ∈ groupDaily df, e.date = d) ↔ ∃ r ∈ df, r.date = d := by
  constructor
  · rintro ⟨e, he, rfl⟩
    rw [groupDaily] at he
    obtain ⟨d', hd', he⟩ := List.mem_map.mp he
    rw [List.mem_insertionSort, List.mem_dedup, List.mem_map] at hd'
    obtain ⟨r, hr, rfl⟩ := hd'
    exact ⟨r, hr, by rw [← he]⟩
  · rintro ⟨r, hr, rfl⟩
    refine ⟨⟨r.date, sumQtyOn df r.date, sumAmountOn df r.date⟩, ?_, rfl⟩
    rw [groupDaily]
    exact List.mem_map_of_mem _
      ((List.mem_insertionSort _).mpr ((List.mem_dedup).mpr
        (List.mem_map_of_mem _ hr)))

theorem groupDaily_ne_nil {df : List SalesRow} (h : df ≠ []) :
    groupDaily df ≠ [] := by
  obtain ⟨r, hr⟩ := List.exists_mem_of_ne_nil df h
  obtain ⟨e, he, _⟩ := mem_groupDaily_date.mpr ⟨r, hr, rfl⟩
  exact List.ne_nil_of_mem he

theorem mem_groupDaily_dates_iff {df : List SalesRow} {d : Nat} :
    d ∈ (groupDaily df).map (fun e => e.date) ↔ d ∈ df.map (fun r => r.date) := by
  simp only [List.mem_map]
  exact mem_groupDaily_date

theorem aggregate_eq_gapFill {df : List SalesRow} (h : df ≠ []) :
    aggregate df =
      gapFill (groupDaily df) (listMin (df.map (fun r => r.date)))
        (listMax (df.map (fun r => r.date))) := by
  have hne : groupDaily df ≠ [] := groupDaily_ne_nil h
  have hmapne : (groupDaily df).map (fun e => e.date) ≠ [] := by
    simpa using hne
  have hdfne : df.map (fun r => r.date) ≠ [] := by
    simpa using h
  simp only [aggregate]
  rw [if_neg (by simp [List.isEmpty_iff, hne])]
  rw [listMin_congr hmapne hdfne (fun x => mem_groupDaily_dates_iff),
    listMax_congr hmapne hdfne (fun x => mem_groupDaily_dates_iff)]

theorem aggregate_min_le_max {df : List SalesRow} (h : df ≠ []) :
    listMin (df.map (fun r => r.date)) ≤ listMax (df.map (fun r => r.date)) := by
  have hdfne : df.map (fun r => r.date) ≠ [] := by simpa using h
  exact le_trans (listMin_le (listMax_mem hdfne)) (le_refl _)

theorem aggregate_length {df : List SalesRow} (h : df ≠ []) :
    (aggregate df).length =
      listMax (df.map (fun r => r.date)) - listMin (df.map (fun r => r.date)) + 1 := by
  rw [aggregate_eq_gapFill h, length_gapFill _ (aggregate_min_le_max h)]

theorem aggregate_date {df : List SalesRow} (h : df ≠ []) (i : Nat)
    (hi : i < (aggregate df).length) :
    ((aggregate df)[i]).date = listMin (df.map (fun r => r.date)) + i := by
  have hi' : i < (gapFill (groupDaily df) (listMin (df.map (fun r => r.date)))
      (listMax (df.map (fun r => r.date)))).length := by
    rw [← aggregate_eq_gapFill h]; exact hi
  rw [List.getElem_of_eq (aggregate_eq_gapFill h) hi]
  exact getElem_gapFill_date _ (aggregate_min_le_max h) i hi'

theorem aggregate_map_date {df : List SalesRow} (h : df ≠ []) :
    (aggregate df).map (fun e => e.date) =
      dateRange (listMin (df.map (fun r => r.date)))
        (listMax (df.map (fun r => r.date))) := by
  apply List.ext_getElem
  · rw [List.length_map, aggregate_length h,
      length_dateRange (aggregate_min_le_max h)]
  · intro i h₁ h₂
    rw [List.getElem_map, aggregate_date h i (by simpa using h₁),
      getElem_dateRange (aggregate_min_le_max h) i h₂]

theorem takeUntilSep_append_indep (post₁ post₂ : List Char) :
    ∀ pre : List Char,
      takeUntilSep (pre ++ ' ' :: '-' :: ' ' :: post₁) =
        takeUntilSep (pre ++ ' ' :: '-' :: ' ' :: post₂)
  | [] => by simp [takeUntilSep]
  | c :: pre' => by
    simp only [List.cons_append, takeUntilSep, List.append_eq]
    have htake : (pre' ++ ' ' :: '-' :: ' ' :: post₁).take 2 =
        (pre' ++ ' ' :: '-' :: ' ' :: post₂).take 2 := by
      match pre' with
      | [] => rfl
      | [a] => rfl
      | a :: b :: t => simp
    rw [htake]
    split
    · rfl
    · rw [takeUntilSep_append_indep post₁ post₂ pre']

theorem firstSegment_name_indep (pre n₁ n₂ : String) :
    firstSegment (pre ++ " - " ++ n₁) = firstSegment (pre ++ " - " ++ n₂) := by
  simp only [firstSegment, String.data_append]
  congr 1
  have h₁ : pre.data ++ " - ".data ++ n₁.data =
      pre.data ++ ' ' :: '-' :: ' ' :: n₁.data := by simp
  have h₂ : pre.data ++ " - ".data ++ n₂.data =
      pre.data ++ ' ' :: '-' :: ' ' :: n₂.data := by simp
  rw [h₁, h₂, takeUntilSep_append_indep]

theorem clampNonNeg_nonneg {xs : List Int} {x : Int} (hx : x ∈ clampNonNeg xs) :
    0 ≤ x := by
  rw [clampNonNeg] at hx
  obtain ⟨y, _, rfl⟩ := List.mem_map.mp hx
  exact le_max_right _ _

theorem prophet_slice_spec (training : List DailyEntry)
    (yhat rawA rawL : Nat → Int) {mn tl : Nat}
    (htr : training.map (fun e => e.date) = dateRange mn tl) (hmn : mn ≤ tl)
    {s : Nat} (hs : mn ≤ s) (fdays d2fe : Nat) :
    forecast_quantity .prophet training yhat rawA rawL s fdays d2fe =
      (List.range' s (min fdays (tl + d2fe + 1 - s))).map
        (fun d => max (yhat d) 0) := by
  have hmax : listMax (training.map (fun e => e.date)) = tl := by
    rw [htr, dateRange_eq hmn]
    have h1 : tl - mn + 1 = (tl - mn) + 1 := rfl
    rw [h1, listMax_range']
    omega
  have hfuture : prophetFutureDates (training.map (fun e => e.date)) d2fe =
      List.range' mn (tl + d2fe + 1 - mn) := by
    rw [prophetFutureDates, hmax, htr, dateRange_eq hmn]
    have h2 : tl + 1 = mn + 1 * (tl - mn + 1) := by omega
    rw [h2, List.range'_append]
    congr 1
    omega
  simp only [forecast_quantity, hfuture]
  rw [List.filter_map]
  have hcomp : ((fun p => decide (s ≤ p.1)) ∘ fun d => ((d, yhat d) : Nat × Int)) =
      (fun d => decide (s ≤ d)) := rfl
  rw [hcomp]
  have hfilter : (List.range' mn (tl + d2fe + 1 - mn)).filter
      (fun d => decide (s ≤ d)) = List.range' s (tl + d2fe + 1 - s) := by
    rcases le_or_lt s (tl + d2fe + 1) with hcase | hcase
    · have hsplit : List.range' mn (tl + d2fe + 1 - mn) =
          List.range' mn (s - mn) ++ List.range' s (tl + d2fe + 1 - s) := by
        have h3 := List.range'_append mn (s - mn) (tl + d2fe + 1 - s) 1
        rw [show mn + 1 * (s - mn) = s by omega] at h3
        rw [show (tl + d2fe + 1 - s) + (s - mn) = tl + d2fe + 1 - mn by omega]
          at h3
        exact h3.symm
      rw [hsplit, List.filter_append]
      have hleft : (List.range' mn (s - mn)).filter
          (fun d => decide (s ≤ d)) = [] := by
        rw [List.filter_eq_nil_iff]
        intro x hx
        rw [List.mem_range'_1] at hx
        simp only [decide_eq_true_eq]
        omega
      have hright : (List.range' s (tl + d2fe + 1 - s)).filter
          (fun d => decide (s ≤ d)) = List.range' s (tl + d2fe + 1 - s) := by
        rw [List.filter_eq_self]
        intro x hx
        rw [List.mem_range'_1] at hx
        simp only [decide_eq_true_eq]
        omega
      rw [hleft, hright, List.nil_append]
    · have hzero : tl + d2fe + 1 - s = 0 := by omega
      rw [hzero, List.range'_zero]
      rw [List.filter_eq_nil_iff]
      intro x hx
      rw [List.mem_range'_1] at hx
      simp only [decide_eq_true_eq]
      omega
  rw [hfilter, List.map_map]
  have hsnd : ((fun p => p.2) ∘ fun d => ((d, yhat d) : Nat × Int)) = yhat := rfl
  rw [hsnd]
  simp only [List.length_map, List.length_range']
  rcases le_or_lt fdays (tl + d2fe + 1 - s) with hc | hc
  · rw [if_pos hc, ← List.map_take, take_range', clampNonNeg, List.map_map]
    rfl
  · rw [if_neg (by omega), clampNonNeg, List.map_map,
      min_eq_right (le_of_lt hc)]
    rfl

theorem filter_by_department_full_labels (df : List SalesRow)
    (hlab : ∀ r ∈ df, firstSegment (deptLabel r) = strip r.deptCode) :
    filter_by_department df (deptLabels df) = df := by
  simp only [filter_by_department]
  split
  · rfl
  · rw [List.filter_eq_self]
    intro r hr
    simp only [decide_eq_true_eq]
    exact List.mem_map.mpr
      ⟨deptLabel r, List.mem_dedup.mpr (List.mem_map_of_mem _ hr), hlab r hr⟩

theorem filter_by_order_method_full_labels (df : List SalesRow)
    (hlab : ∀ r ∈ df, firstSegment (methodLabel r) = strip r.methodCode) :
    filter_by_order_method df (methodLabels df) = df := by
  simp only [filter_by_order_method]
  split
  · rfl
  · rw [List.filter_eq_self]
    intro r hr
    simp only [decide_eq_true_eq]
    exact List.mem_map.mpr
      ⟨methodLabel r, List.mem_dedup.mpr (List.mem_map_of_mem _ hr), hlab r hr⟩

theorem filter_by_product_full_labels (df : List SalesRow)
    (hlab : ∀ r ∈ df, firstSegment (prodLabel r) = strip r.prodCode) :
    filter_by_product df (prodLabels df) = aggregate df := by
  simp only [filter_by_product]
  split
  · rfl
  · congr 1
    rw [List.filter_eq_self]
    intro r hr
    simp only [decide_eq_true_eq]
    exact List.mem_map.mpr
      ⟨prodLabel r, List.mem_dedup.mpr (List.mem_map_of_mem _ hr), hlab r hr⟩

theorem mem_filter_by_department {df : List SalesRow} {sel : List String}
    (hne : ¬(sel = [] ∨ "全ての部門" ∈ sel)) (r : SalesRow) :
    r ∈ filter_by_department df sel ↔
      r ∈ df ∧ ∃ lab ∈ sel, firstSegment lab = strip r.deptCode := by
  simp only [filter_by_department, if_neg hne, List.mem_filter,
    decide_eq_true_eq, List.mem_map]

theorem mem_filter_by_order_method {df : List SalesRow} {sel : List String}
    (hne : ¬(sel = [] ∨ "全ての受注方法" ∈ sel)) (r : SalesRow) :
    r ∈ filter_by_order_method df sel ↔
      r ∈ df ∧ ∃ lab ∈ sel, firstSegment lab = strip r.methodCode := by
  simp only [filter_by_order_method, if_neg hne, List.mem_filter,
    decide_eq_true_eq, List.mem_map]

theorem forecast_table_length (dates : List Nat) (fq fa : List Int) :
    (forecast_table_rows dates fq fa).length =
      min dates.length (min fq.length fa.length) := by
  simp only [forecast_table_rows, List.length_zip, List.length_take]
  omega

theorem forecast_table_get (dates : List Nat) (fq fa : List Int) (i : Nat)
    (hi : i < (forecast_table_rows dates fq fa).length) :
    ∃ (h1 : i < dates.length) (h2 : i < fq.length) (h3 : i < fa.length),
      (forecast_table_rows dates fq fa).get ⟨i, hi⟩ =
        (dates.get ⟨i, h1⟩, fq.get ⟨i, h2⟩, fa.get ⟨i, h3⟩) := by
  have hlen := forecast_table_length dates fq fa
  have h1 : i < dates.length := by omega
  have h2 : i < fq.length := by omega
  have h3 : i < fa.length := by omega
  refine ⟨h1, h2, h3, ?_⟩
  simp only [forecast_table_rows, List.get_eq_getElem]
  rw [List.getElem_zip, List.getElem_zip, List.getElem_take, List.getElem_take,
    List.getElem_take]

/-- C1: for every non-empty input record set, the Daily Aggregator's output
series has exactly (max_date − min_date).days + 1 entries; the i-th entry is
dated min_date + i (so the series is sorted ascending, each calendar date of
the span appears exactly once and adjacent entries differ by exactly one
day); and every date of the span with no contributing record carries
quantity_sum = 0 and revenue_sum = 0. -/
theorem claim_C1_gap_fill (recs : List SalesRow) (h : recs ≠ []) (mn mx : Nat)
    (hmn : mn = listMin (recs.map (fun r => r.date)))
    (hmx : mx = listMax (recs.map (fun r => r.date))) :
    (aggregate recs).length = mx - mn + 1 ∧
    (∀ i (hi : i < (aggregate recs).length),
      ((aggregate recs).get ⟨i, hi⟩).date = mn + i) ∧
    (∀ i (hi : i + 1 < (aggregate recs).length),
      ((aggregate recs).get ⟨i + 1, hi⟩).date =
        ((aggregate recs).get ⟨i, Nat.lt_of_succ_lt hi⟩).date + 1) ∧
    (∀ e ∈ aggregate recs, (∀ r ∈ recs, r.date ≠ e.date) →
      e.qty = 0 ∧ e.amount = 0) := by
  subst hmn hmx
  refine ⟨aggregate_length h, ?_, ?_, ?_⟩
  · intro i hi
    exact aggregate_date h i hi
  · intro i hi
    have ha := aggregate_date h (i + 1) hi
    have hb := aggregate_date h i (Nat.lt_of_succ_lt hi)
    simp only [List.get_eq_getElem] at ha hb ⊢
    omega
  · intro e he hno
    obtain ⟨i, hi, hie⟩ := List.mem_iff_getElem.mp he
    have hdate : e.date = listMin (recs.map (fun r => r.date)) + i := by
      rw [← hie]
      exact aggregate_date h i hi
    have hzero : (aggregate recs)[i] =
        ⟨listMin (recs.map (fun r => r.date)) + i, 0, 0⟩ := by
      have hi' : i < (gapFill (groupDaily recs)
          (listMin (recs.map (fun r => r.date)))
          (listMax (recs.map (fun r => r.date)))).length := by
        rw [← aggregate_eq_gapFill h]; exact hi
      rw [List.getElem_of_eq (aggregate_eq_gapFill h) hi]
      apply getElem_gapFill_of_none _ (aggregate_min_le_max h) i hi'
      intro e' he' habs
      obtain ⟨r, hr, hrd⟩ := mem_groupDaily_date.mp ⟨e', he', rfl⟩
      exact hno r hr (by rw [hrd, habs, ← hdate])
    rw [← hie, hzero]
    exact ⟨rfl, rfl⟩

/-- C1 witness: a concrete two-record set with a one-day gap. -/
theorem claim_C1_gap_fill_witness :
    ([⟨0, 1, 2, "d", "D", "m", "M", "p", "P"⟩,
      ⟨2, 5, 7, "d", "D", "m", "M", "p", "P"⟩] : List SalesRow) ≠ [] ∧
    (aggregate [⟨0, 1, 2, "d", "D", "m", "M", "p", "P"⟩,
      ⟨2, 5, 7, "d", "D", "m", "M", "p", "P"⟩]).length = 2 - 0 + 1 := by
  refine ⟨by decide, ?_⟩
  exact (claim_C1_gap_fill
    [⟨0, 1, 2, "d", "D", "m", "M", "p", "P"⟩,
     ⟨2, 5, 7, "d", "D", "m", "M", "p", "P"⟩]
    (by decide) 0 2 (by decide) (by decide)).1

/-- C2: for every backend, every training series and every horizon, every
element of the returned quantity forecast and of the returned revenue
forecast is ≥ 0 — each backend branch ends in the elementwise
`np.maximum(·, 0)` clamp, so even negative raw model output is clamped. -/
theorem claim_C2_nonneg (b : Backend) (training : List DailyEntry)
    (yq aq lq ya aa la : Nat → Int) (s fdays d2fe : Nat) (x : Int)
    (hx : x ∈ forecast_quantity b training yq aq lq s fdays d2fe ∨
      x ∈ forecast_amount b training ya aa la s fdays d2fe) :
    0 ≤ x := by
  rcases hx with hx | hx <;> cases b <;>
    simp only [forecast_quantity, forecast_amount] at hx <;>
    exact clampNonNeg_nonneg hx

/-- C2 witness: the linear backend fed a raw prediction of −7 returns 0. -/
theorem claim_C2_nonneg_witness :
    (0 : Int) ∈ forecast_quantity .linreg [] (fun _ => 0) (fun _ => 0)
      (fun _ => -7) 0 1 0 ∧ (0 : Int) ≤ 0 :=
  ⟨by decide,
    claim_C2_nonneg .linreg [] (fun _ => 0) (fun _ => 0) (fun _ => -7)
      (fun _ => 0) (fun _ => 0) (fun _ => 0) 0 1 0 0 (Or.inl (by decide))⟩

/-- C8: the Aggregator maps an empty record set to an empty DailySeries (the
`len > 0` guard skips the date-range computation), and whenever the cascaded
filters leave an empty daily frame the engine yields the "no data"
condition (`daily_data = None`) and the forecast section is not entered. -/
theorem claim_C8_empty_data (raw : List SalesRow) (dsel msel psel : List String)
    (hempty : filter_by_product (filter_by_order_method
      (filter_by_department raw dsel) msel) psel = []) :
    aggregate ([] : List SalesRow) = [] ∧
    engineDailyData raw dsel msel psel = none ∧
    canForecast (engineDailyData raw dsel msel psel) = false := by
  have hengine : engineDailyData raw dsel msel psel = none := by
    simp only [engineDailyData, hempty]
    rfl
  exact ⟨rfl, hengine, by rw [hengine]; rfl⟩

/-- C8 witness: the empty upload with empty selections. -/
theorem claim_C8_empty_data_witness :
    filter_by_product (filter_by_order_method
      (filter_by_department [] []) []) [] = ([] : List DailyEntry) ∧
    engineDailyData [] [] [] [] = none :=
  ⟨by decide, (claim_C8_empty_data [] [] [] [] (by decide)).2.1⟩

/-- C9 counterexample: a two-row upload whose second row has the
non-numeric amount "abc".  The claim predicts that only that row is excluded
and the first row is still aggregated; the code instead converts the whole
column at line 91, the conversion raises, the handler at lines 128-131
returns `(None, None)`, and nothing is loaded — while the same upload without
the bad row loads fine. -/
theorem claim_C9_counterexample :
    load_data [⟨some 0, 2, "1,000", "d", "D", "m", "M", "p", "P"⟩,
      ⟨some 1, 3, "abc", "d", "D", "m", "M", "p", "P"⟩] = none ∧
    load_data [⟨some 0, 2, "1,000", "d", "D", "m", "M", "p", "P"⟩] =
      some ([⟨0, 2, 1000⟩], [⟨0, 2, 1000, "d", "D", "m", "M", "p", "P"⟩]) := by
  decide

/-- C9 (amended): a row whose net_amount string is not numeric after
stripping grouping separators makes the whole load fail — `load_data`
reports the handled error value (`none`, an on-screen error message) and no
row at all is aggregated; an input with every amount parsable loads
successfully, so the failure is a visible message rather than a crash,
but the rest of the data does not remain usable. -/
theorem claim_C9_amount_abort (rows goodRows : List RawRow)
    (hbad : ∃ r ∈ rows, parseAmount r.amountStr = none)
    (hgood : ∀ r ∈ goodRows, (parseAmount r.amountStr).isSome = true) :
    load_data rows = none ∧ load_data goodRows ≠ none := by
  constructor
  · obtain ⟨r, hr, hnone⟩ := hbad
    rw [load_data, if_neg]
    intro hall
    have := List.all_eq_true.mp hall r hr
    rw [hnone] at this
    simp at this
  · rw [load_data, if_pos (List.all_eq_true.mpr hgood)]
    simp

/-- C9 witness: one bad row aborts; one good row loads. -/
theorem claim_C9_amount_abort_witness :
    load_data [⟨some 1, 3, "abc", "d", "D", "m", "M", "p", "P"⟩] = none ∧
    load_data [⟨some 0, 2, "1,000", "d", "D", "m", "M", "p", "P"⟩] ≠ none :=
  claim_C9_amount_abort
    [⟨some 1, 3, "abc", "d", "D", "m", "M", "p", "P"⟩]
    [⟨some 0, 2, "1,000", "d", "D", "m", "M", "p", "P"⟩]
    ⟨⟨some 1, 3, "abc", "d", "D", "m", "M", "p", "P"⟩, by decide, by decide⟩
    (by decide)

/-- C4: for every filtered daily series (the aggregation of a non-empty
record set) and every operator-chosen cutoff within the widget's range
(`data_end_date ≥ true min date`), the training series spans exactly
[true min date, data_end_date], contiguous and sorted (entry i is dated
min + i); days past the true last data date are synthesized as
zero-quantity/zero-revenue entries; and days up to the true last data date
keep their original series entries, so in particular entries after an early
cutoff are excluded. -/
theorem claim_C4_training_series (recs : List SalesRow) (h : recs ≠ [])
    (mn mx dend : Nat) (hmn : mn = listMin (recs.map (fun r => r.date)))
    (hmx : mx = listMax (recs.map (fun r => r.date))) (hd : mn ≤ dend) :
    (daily_data_for_forecast (aggregate recs) dend).length = dend - mn + 1 ∧
    (∀ i (hi : i < (daily_data_for_forecast (aggregate recs) dend).length),
      ((daily_data_for_forecast (aggregate recs) dend).get ⟨i, hi⟩).date =
        mn + i) ∧
    (∀ i (hi : i < (daily_data_for_forecast (aggregate recs) dend).length),
      mx < mn + i →
      (daily_data_for_forecast (aggregate recs) dend).get ⟨i, hi⟩ =
        ⟨mn + i, 0, 0⟩) ∧
    (∀ i (hi : i < (daily_data_for_forecast (aggregate recs) dend).length),
      mn + i ≤ mx →
      (daily_data_for_forecast (aggregate recs) dend).get ⟨i, hi⟩ ∈
        aggregate recs) := by
  subst hmn hmx
  have hminmax := aggregate_min_le_max h
  have hmap := aggregate_map_date h
  have hlen := aggregate_length h
  have hne : aggregate recs ≠ [] := by
    intro hnil
    rw [hnil] at hlen
    simp at hlen
  have hkept : (aggregate recs).filter (fun e => decide (e.date ≤
      listMax ((aggregate recs).map (fun e => e.date)))) = aggregate recs := by
    rw [List.filter_eq_self]
    intro e he
    simp only [decide_eq_true_eq]
    exact le_listMax (List.mem_map_of_mem _ he)
  have hminD : listMin ((aggregate recs).map (fun e => e.date)) =
      listMin (recs.map (fun r => r.date)) := by
    rw [hmap, dateRange_eq hminmax, listMin_range']
  have hunfold : daily_data_for_forecast (aggregate recs) dend =
      gapFill (aggregate recs) (listMin (recs.map (fun r => r.date))) dend := by
    simp only [daily_data_for_forecast]
    rw [hkept, if_neg (by simp [List.isEmpty_iff, hne]), hminD]
  have hdatemem : ∀ d, d ∈ (aggregate recs).map (fun e => e.date) ↔
      listMin (recs.map (fun r => r.date)) ≤ d ∧
        d ≤ listMax (recs.map (fun r => r.date)) := by
    intro d
    rw [hmap]
    exact mem_dateRange hminmax
  refine ⟨?_, ?_, ?_, ?_⟩
  · rw [hunfold]
    exact length_gapFill _ hd
  · intro i hi
    have hi' : i < (gapFill (aggregate recs)
        (listMin (recs.map (fun r => r.date))) dend).length := by
      rw [← hunfold]; exact hi
    simp only [List.get_eq_getElem]
    rw [List.getElem_of_eq hunfold hi]
    exact getElem_gapFill_date _ hd i hi'
  · intro i hi hgt
    have hi' : i < (gapFill (aggregate recs)
        (listMin (recs.map (fun r => r.date))) dend).length := by
      rw [← hunfold]; exact hi
    simp only [List.get_eq_getElem]
    rw [List.getElem_of_eq hunfold hi]
    apply getElem_gapFill_of_none _ hd i hi'
    intro e he habs
    have := (hdatemem e.date).mp (List.mem_map_of_mem _ he)
    omega
  · intro i hi hle
    have hi' : i < (gapFill (aggregate recs)
        (listMin (recs.map (fun r => r.date))) dend).length := by
      rw [← hunfold]; exact hi
    simp only [List.get_eq_getElem]
    rw [List.getElem_of_eq hunfold hi]
    apply getElem_gapFill_of_mem _ hd i hi'
    have hmem : (listMin (recs.map (fun r => r.date)) + i) ∈
        (aggregate recs).map (fun e => e.date) := by
      rw [hdatemem]
      omega
    obtain ⟨e, he, hed⟩ := List.mem_map.mp hmem
    exact ⟨e, he, hed⟩

/-- C4 witness: a two-record set with span [0, 2] and cutoff 4. -/
theorem claim_C4_training_series_witness :
    ([⟨0, 1, 2, "d", "D", "m", "M", "p", "P"⟩,
      ⟨2, 5, 7, "d", "D", "m", "M", "p", "P"⟩] : List SalesRow) ≠ [] ∧
    (daily_data_for_forecast (aggregate
      [⟨0, 1, 2, "d", "D", "m", "M", "p", "P"⟩,
       ⟨2, 5, 7, "d", "D", "m", "M", "p", "P"⟩]) 4).length = 4 - 0 + 1 := by
  refine ⟨by decide, ?_⟩
  exact (claim_C4_training_series
    [⟨0, 1, 2, "d", "D", "m", "M", "p", "P"⟩,
     ⟨2, 5, 7, "d", "D", "m", "M", "p", "P"⟩]
    (by decide) 0 2 4 (by decide) (by decide) (by decide)).1

/-- C5 counterexample: filtering with the "all" sentinel (or an empty
selection) passes the single record through, but filtering with the axis's
full category-label set drops it, because the department code "1 - 2"
contains the separator and the label's first segment is only "1"; the
resulting DailySeries differ. -/
theorem claim_C5_counterexample :
    filter_by_department [⟨0, 1, 1, "1 - 2", "N", "m", "M", "p", "P"⟩]
      ["全ての部門"] = [⟨0, 1, 1, "1 - 2", "N", "m", "M", "p", "P"⟩] ∧
    filter_by_department [⟨0, 1, 1, "1 - 2", "N", "m", "M", "p", "P"⟩] [] =
      [⟨0, 1, 1, "1 - 2", "N", "m", "M", "p", "P"⟩] ∧
    deptLabels [⟨0, 1, 1, "1 - 2", "N", "m", "M", "p", "P"⟩] =
      ["1 - 2 - N"] ∧
    filter_by_department [⟨0, 1, 1, "1 - 2", "N", "m", "M", "p", "P"⟩]
      ["1 - 2 - N"] = [] ∧
    filter_by_product (filter_by_department
      [⟨0, 1, 1, "1 - 2", "N", "m", "M", "p", "P"⟩] ["1 - 2 - N"])
      ["全ての商品"] ≠
    filter_by_product (filter_by_department
      [⟨0, 1, 1, "1 - 2", "N", "m", "M", "p", "P"⟩] ["全ての部門"])
      ["全ての商品"] := by
  decide

/-- C5 (amended): on each axis an empty or sentinel-containing selection is a
no-op (records pass through unchanged; the product stage aggregates the
unfiltered frame), and filtering with the axis's full category-label set is
likewise a no-op provided each record's label has the record's stripped code
as its segment before the first " - " — which can fail when a code itself
contains " - ", as the counterexample shows. -/
theorem claim_C5_all_noop (df : List SalesRow) (dsel msel psel : List String)
    (hd : dsel = [] ∨ "全ての部門" ∈ dsel)
    (hm : msel = [] ∨ "全ての受注方法" ∈ msel)
    (hp : psel = [] ∨ "全ての商品" ∈ psel)
    (hlabD : ∀ r ∈ df, firstSegment (deptLabel r) = strip r.deptCode)
    (hlabM : ∀ r ∈ df, firstSegment (methodLabel r) = strip r.methodCode)
    (hlabP : ∀ r ∈ df, firstSegment (prodLabel r) = strip r.prodCode) :
    filter_by_department df dsel = df ∧
    filter_by_order_method df msel = df ∧
    filter_by_product df psel = aggregate df ∧
    filter_by_department df (deptLabels df) = df ∧
    filter_by_order_method df (methodLabels df) = df ∧
    filter_by_product df (prodLabels df) = aggregate df ∧
    filter_by_product (filter_by_department df (deptLabels df)) psel =
      filter_by_product (filter_by_department df dsel) psel := by
  have h1 : filter_by_department df dsel = df := by
    rw [filter_by_department, if_pos hd]
  have h4 := filter_by_department_full_labels df hlabD
  refine ⟨h1, ?_, ?_, h4, ?_, ?_, ?_⟩
  · rw [filter_by_order_method, if_pos hm]
  · rw [filter_by_product, if_pos hp]
  · exact filter_by_order_method_full_labels df hlabM
  · exact filter_by_product_full_labels df hlabP
  · rw [h1, h4]

/-- C5 witness: a record set whose codes contain no separator. -/
theorem claim_C5_all_noop_witness :
    filter_by_department [⟨0, 1, 1, "1", "A", "2", "B", "3", "C"⟩]
      (deptLabels [⟨0, 1, 1, "1", "A", "2", "B", "3", "C"⟩]) =
      [⟨0, 1, 1, "1", "A", "2", "B", "3", "C"⟩] ∧
    filter_by_product [⟨0, 1, 1, "1", "A", "2", "B", "3", "C"⟩]
      (prodLabels [⟨0, 1, 1, "1", "A", "2", "B", "3", "C"⟩]) =
      aggregate [⟨0, 1, 1, "1", "A", "2", "B", "3", "C"⟩] := by
  have h := claim_C5_all_noop [⟨0, 1, 1, "1", "A", "2", "B", "3", "C"⟩]
    [] [] [] (Or.inl rfl) (Or.inl rfl) (Or.inl rfl)
    (by decide) (by decide) (by decide)
  exact ⟨h.2.2.2.1, h.2.2.2.2.2.1⟩

/-- C6 counterexample: a run with start 9, end 10 and true last data date 5:
days_to_forecast_end resolves to 5, but the ARIMA and linear-regression
branches request forecast_days = 2 periods from their backend, not 5. -/
theorem claim_C6_counterexample :
    days_to_forecast_end 10 5 (forecast_days 9 10) = 5 ∧
    forecast_days 9 10 = 2 ∧
    periodsRequested .arima (days_to_forecast_end 10 5 (forecast_days 9 10))
      (forecast_days 9 10) = 2 ∧
    periodsRequested .linreg (days_to_forecast_end 10 5 (forecast_days 9 10))
      (forecast_days 9 10) = 2 ∧
    ((2 : Int) ≠ 5) := by
  decide

/-- C6 (amended): days_to_forecast_end = (end_date − true_last_data_date).days
with fallback to horizon_days = (end_date − start_date).days + 1 when
negative; that value is the number of future periods requested from the
seasonal-decomposition (Prophet) backend only, while the ARIMA and
linear-regression backends are asked for forecast_days periods. -/
theorem claim_C6_horizon (s e last : Nat) (fd d2 : Int)
    (hfd : fd = forecast_days s e) (hd2 : d2 = days_to_forecast_end e last fd) :
    fd = ((e : Int) - (s : Int)) + 1 ∧
    ((last : Nat) ≤ e → d2 = (e : Int) - (last : Int)) ∧
    (e < (last : Nat) → d2 = fd) ∧
    periodsRequested .prophet d2 fd = d2 ∧
    periodsRequested .arima d2 fd = fd ∧
    periodsRequested .linreg d2 fd = fd := by
  subst hfd hd2
  refine ⟨rfl, ?_, ?_, rfl, rfl, rfl⟩
  · intro hle
    rw [days_to_forecast_end, if_neg (by omega)]
  · intro hlt
    rw [days_to_forecast_end, if_pos (by omega)]

/-- C6 witness: the overlap run (end before last data date). -/
theorem claim_C6_horizon_witness :
    (4 : Nat) < 10 ∧ days_to_forecast_end 4 10 (forecast_days 3 4) =
      forecast_days 3 4 := by
  refine ⟨by decide, ?_⟩
  exact (claim_C6_horizon 3 4 10 (forecast_days 3 4)
    (days_to_forecast_end 4 10 (forecast_days 3 4)) rfl rfl).2.2.1 (by decide)

/-- C7 counterexample: with a negatively-coded label present, the
non-numeric label "N/A - B" (key 0) does not sort immediately after the
sentinel: "-5 - A" (key −5) comes between them. -/
theorem claim_C7_counterexample :
    sort_by_code ["全ての部門", "-5 - A", "N/A - B"] true =
      ["全ての部門", "-5 - A", "N/A - B"] ∧
    parseIntOfFloat (strip (firstSegment "N/A - B")).data = none ∧
    extract_code "-5 - A" = -5 ∧
    (sort_by_code ["全ての部門", "-5 - A", "N/A - B"] true ≠
      ["全ての部門", "N/A - B", "-5 - A"]) := by
  decide

/-- C7 (amended): sort_by_code keeps the input's first element (the "all"
sentinel) in front and sorts the remaining labels ascending by the numeric
value of the segment before " - "; a label with non-numeric code gets key 0,
hence sorts before every positively-coded label (though after
negatively-coded ones, not necessarily immediately after the sentinel). -/
theorem claim_C7_sort_order (sentinel : String) (rest : List String) :
    (sort_by_code (sentinel :: rest) true).head? = some sentinel ∧
    (sort_by_code (sentinel :: rest) true).tail.Perm rest ∧
    List.Sorted (fun a b => extract_code a ≤ extract_code b)
      (sort_by_code (sentinel :: rest) true).tail ∧
    (∀ i j (hi : i < (sort_by_code (sentinel :: rest) true).tail.length)
      (hj : j < (sort_by_code (sentinel :: rest) true).tail.length),
      parseIntOfFloat (strip (firstSegment
        ((sort_by_code (sentinel :: rest) true).tail.get ⟨i, hi⟩))).data =
          none →
      0 < extract_code ((sort_by_code (sentinel :: rest) true).tail.get
        ⟨j, hj⟩) →
      i < j) := by
  have hout : sort_by_code (sentinel :: rest) true =
      sentinel :: List.insertionSort
        (fun a b => extract_code a ≤ extract_code b) rest := rfl
  rw [hout]
  have hsorted : List.Sorted (fun a b => extract_code a ≤ extract_code b)
      (List.insertionSort (fun a b => extract_code a ≤ extract_code b) rest) :=
    List.sorted_insertionSort _ _
  refine ⟨rfl, List.perm_insertionSort _ _, hsorted, ?_⟩
  intro i j hi hj hnone hpos
  simp only [List.tail_cons, List.get_eq_getElem] at hi hj hnone hpos ⊢
  by_contra hij
  have hkey : extract_code ((List.insertionSort
      (fun a b => extract_code a ≤ extract_code b) rest)[i]) = 0 := by
    rw [extract_code, hnone]
  have hle : extract_code ((List.insertionSort
      (fun a b => extract_code a ≤ extract_code b) rest)[j]) ≤
      extract_code ((List.insertionSort
        (fun a b => extract_code a ≤ extract_code b) rest)[i]) := by
    rcases Nat.lt_or_ge j i with hlt | hge
    · exact List.pairwise_iff_getElem.mp hsorted j i hj hi hlt
    · have hji : j = i := by omega
      subst hji
      exact le_refl _
  omega

/-- C7 witness: a positive-coded and a non-numeric label. -/
theorem claim_C7_sort_order_witness :
    (sort_by_code ["全ての部門", "3 - P", "N/A - Q"] true).head? =
      some "全ての部門" ∧ (0 : Nat) < 1 := by
  have h := claim_C7_sort_order "全ての部門" ["3 - P", "N/A - Q"]
  exact ⟨h.1, h.2.2.2 0 1 (by decide) (by decide) (by decide) (by decide)⟩

/-- C10 counterexample: the selected label "7  - X" has first segment "7 "
(not whitespace-stripped by the code), so the record with department code
"7" — whose code equals the whitespace-stripped segment — is not kept,
contradicting the claimed matching rule. -/
theorem claim_C10_counterexample :
    strip (firstSegment "7  - X") = "7" ∧
    (⟨0, 1, 1, "7", "A", "m", "M", "p", "P"⟩ : SalesRow).deptCode = "7" ∧
    filter_by_department [⟨0, 1, 1, "7", "A", "m", "M", "p", "P"⟩]
      ["7  - X"] = [] := by
  decide

/-- C10 (amended): on each axis a record is kept iff its whitespace-stripped
code equals some selected label's raw segment before the first " - " (the
record side is stripped, the label side is not); the name part of a label
never matters — labels with equal segments select the same records, and the
text after the first " - " cannot change the segment. -/
theorem claim_C10_code_match (df : List SalesRow)
    (dsel msel psel : List String) (l₁ l₂ : String)
    (hd : ¬(dsel = [] ∨ "全ての部門" ∈ dsel))
    (hm : ¬(msel = [] ∨ "全ての受注方法" ∈ msel))
    (hp : ¬(psel = [] ∨ "全ての商品" ∈ psel))
    (hseg : firstSegment l₁ = firstSegment l₂)
    (h₁ : l₁ ≠ "全ての部門") (h₂ : l₂ ≠ "全ての部門") :
    (∀ r, r ∈ filter_by_department df dsel ↔
      r ∈ df ∧ ∃ lab ∈ dsel, firstSegment lab = strip r.deptCode) ∧
    (∀ r, r ∈ filter_by_order_method df msel ↔
      r ∈ df ∧ ∃ lab ∈ msel, firstSegment lab = strip r.methodCode) ∧
    (filter_by_product df psel = aggregate (df.filter
      (fun r => decide (∃ lab ∈ psel, firstSegment lab = strip r.prodCode)))) ∧
    filter_by_department df [l₁] = filter_by_department df [l₂] ∧
    (∀ pre n₁ n₂ : String,
      firstSegment (pre ++ " - " ++ n₁) = firstSegment (pre ++ " - " ++ n₂)) := by
  refine ⟨mem_filter_by_department hd, mem_filter_by_order_method hm, ?_, ?_,
    firstSegment_name_indep⟩
  · simp only [filter_by_product]
    rw [if_neg hp]
    congr 1
    apply List.filter_congr
    intro r hr
    simp only [decide_eq_decide, List.mem_map]
  · have hn₁ : ¬(([l₁] : List String) = [] ∨ "全ての部門" ∈ [l₁]) := by
      rintro (habs | habs)
      · exact List.cons_ne_nil _ _ habs
      · rw [List.mem_singleton] at habs
        exact h₁ habs.symm
    have hn₂ : ¬(([l₂] : List String) = [] ∨ "全ての部門" ∈ [l₂]) := by
      rintro (habs | habs)
      · exact List.cons_ne_nil _ _ habs
      · rw [List.mem_singleton] at habs
        exact h₂ habs.symm
    simp only [filter_by_department]
    rw [if_neg hn₁, if_neg hn₂]
    apply List.filter_congr
    intro r hr
    simp [hseg]

/-- C10 witness: a one-record frame with simple codes; two labels sharing the
segment "3" select the same record. -/
theorem claim_C10_code_match_witness :
    ((⟨0, 1, 1, "3", "A", "3", "B", "3", "C"⟩ : SalesRow) ∈
      filter_by_department [⟨0, 1, 1, "3", "A", "3", "B", "3", "C"⟩]
        ["3 - z"] ↔
      (⟨0, 1, 1, "3", "A", "3", "B", "3", "C"⟩ : SalesRow) ∈
        [⟨0, 1, 1, "3", "A", "3", "B", "3", "C"⟩] ∧
      ∃ lab ∈ ["3 - z"], firstSegment lab =
        strip (⟨0, 1, 1, "3", "A", "3", "B", "3", "C"⟩ : SalesRow).deptCode) ∧
    filter_by_department [⟨0, 1, 1, "3", "A", "3", "B", "3", "C"⟩]
      ["3 - z"] =
      filter_by_department [⟨0, 1, 1, "3", "A", "3", "B", "3", "C"⟩]
        ["3 - w"] := by
  have h := claim_C10_code_match
    [⟨0, 1, 1, "3", "A", "3", "B", "3", "C"⟩]
    ["3 - z"] ["3 - z"] ["3 - z"] "3 - z" "3 - w"
    (by decide) (by decide) (by decide) (by decide) (by decide) (by decide)
  exact ⟨h.1 _, h.2.2.2.1⟩

/-- C3 counterexample: a run over the 30-day window [9, 38] (the ordinal
encoding of a 2025-01-01 .. 2025-01-30 window) with true last data date 10
and operator cutoff 8: days_to_forecast_end = 28, the Prophet future frame
ends at day 36, the sliced prediction array has 28 elements, and the output
table has 28 rows — not the claimed 30 — so the prediction array is not
sliced to exactly the dates in [start_date, end_date] either. -/
theorem claim_C3_counterexample :
    forecast_days 9 38 = 30 ∧
    days_to_forecast_end 38 10 (forecast_days 9 38) = 28 ∧
    (forecast_quantity .prophet
      [⟨0, 1, 1⟩, ⟨1, 1, 1⟩, ⟨2, 1, 1⟩, ⟨3, 1, 1⟩, ⟨4, 1, 1⟩, ⟨5, 1, 1⟩,
       ⟨6, 1, 1⟩, ⟨7, 1, 1⟩, ⟨8, 1, 1⟩]
      (fun _ => 1) (fun _ => 1) (fun _ => 1) 9 30 28).length = 28 ∧
    (forecast_table_rows (forecast_dates_quantity 9 38)
      (forecast_quantity .prophet
        [⟨0, 1, 1⟩, ⟨1, 1, 1⟩, ⟨2, 1, 1⟩, ⟨3, 1, 1⟩, ⟨4, 1, 1⟩, ⟨5, 1, 1⟩,
         ⟨6, 1, 1⟩, ⟨7, 1, 1⟩, ⟨8, 1, 1⟩]
        (fun _ => 1) (fun _ => 1) (fun _ => 1) 9 30 28)
      (forecast_amount .prophet
        [⟨0, 1, 1⟩, ⟨1, 1, 1⟩, ⟨2, 1, 1⟩, ⟨3, 1, 1⟩, ⟨4, 1, 1⟩, ⟨5, 1, 1⟩,
         ⟨6, 1, 1⟩, ⟨7, 1, 1⟩, ⟨8, 1, 1⟩]
        (fun _ => 1) (fun _ => 1) (fun _ => 1) 9 30 28)).length = 28 ∧
    (28 : Nat) ≠ 30 := by
  decide

/-- C3 (amended): the forecast date column is exactly [start_date, end_date]
(horizon_days entries, the i-th dated start + i); the ARIMA and linear
backends return exactly horizon_days values; the Prophet prediction array is
sliced to the predictions at the contiguous dates from start_date, cut to at
most horizon_days values — exactly the dates in [start_date, end_date]
whenever the predicted range reaches end_date (in particular when the cutoff
equals the true last data date), and a shorter prefix otherwise; and the
output table silently truncates its rows to the shortest column. -/
theorem claim_C3_window_slicing (s e : Nat) (hse : s ≤ e)
    (training : List DailyEntry) (mn tl : Nat)
    (htr : training.map (fun x => x.date) = dateRange mn tl) (hmn : mn ≤ tl)
    (hs : mn ≤ s) (yhat rawA rawL : Nat → Int) (fdays d2fe : Nat)
    (hf : fdays = e - s + 1) :
    ((forecast_dates_quantity s e).length = e - s + 1 ∧
      ∀ i (hi : i < (forecast_dates_quantity s e).length),
        (forecast_dates_quantity s e).get ⟨i, hi⟩ = s + i) ∧
    (forecast_quantity .arima training yhat rawA rawL s fdays d2fe).length =
      fdays ∧
    (forecast_quantity .linreg training yhat rawA rawL s fdays d2fe).length =
      fdays ∧
    (forecast_quantity .prophet training yhat rawA rawL s fdays d2fe =
      (List.range' s (min fdays (tl + d2fe + 1 - s))).map
        (fun d => max (yhat d) 0)) ∧
    (e ≤ tl + d2fe →
      forecast_quantity .prophet training yhat rawA rawL s fdays d2fe =
        (dateRange s e).map (fun d => max (yhat d) 0)) ∧
    (∀ (dts : List Nat) (fq fa : List Int),
      (forecast_table_rows dts fq fa).length =
        min dts.length (min fq.length fa.length) ∧
      ∀ i (hi : i < (forecast_table_rows dts fq fa).length),
        ∃ (h1 : i < dts.length) (h2 : i < fq.length) (h3 : i < fa.length),
          (forecast_table_rows dts fq fa).get ⟨i, hi⟩ =
            (dts.get ⟨i, h1⟩, fq.get ⟨i, h2⟩, fa.get ⟨i, h3⟩)) := by
  have hslice := prophet_slice_spec training yhat rawA rawL htr hmn hs fdays d2fe
  refine ⟨⟨?_, ?_⟩, ?_, ?_, hslice, ?_, ?_⟩
  · exact length_dateRange hse
  · intro i hi
    simp only [forecast_dates_quantity, List.get_eq_getElem] at hi ⊢
    exact getElem_dateRange hse i hi
  · simp [forecast_quantity, clampNonNeg]
  · simp [forecast_quantity, clampNonNeg]
  · intro hreach
    rw [hslice, dateRange_eq hse]
    have hminf : min fdays (tl + d2fe + 1 - s) = fdays := by omega
    rw [hminf, hf]
  · intro dts fq fa
    exact ⟨forecast_table_length dts fq fa, forecast_table_get dts fq fa⟩

/-- C3 witness: a two-day window [5, 6] reached by the predicted range; the
Prophet output is exactly the clamped predictions at days 5 and 6. -/
theorem claim_C3_window_slicing_witness :
    (5 : Nat) ≤ 6 ∧
    forecast_quantity .prophet [⟨4, 1, 1⟩, ⟨5, 2, 2⟩]
      (fun d => (d : Int) - 7) (fun _ => 0) (fun _ => 0) 5 2 1 =
      (dateRange 5 6).map (fun d => max ((d : Int) - 7) 0) := by
  refine ⟨by decide, ?_⟩
  exact (claim_C3_window_slicing 5 6 (by decide) [⟨4, 1, 1⟩, ⟨5, 2, 2⟩] 4 5
    (by decide) (by decide) (by decide) (fun d => (d : Int) - 7)
    (fun _ => 0) (fun _ => 0) 2 1 (by decide)).2.2.2.2.1 (by decide)

end SalesApp
